import Mathlib

/-!
Verification development for the client-side logic layer of the 3D asset
browser (React + TypeScript).  The four core logic units — the asset state
machine (`reducer` in `App.tsx`), the compression transform
(`lib/simulateCompression.ts`), the filter/sort engine
(`hooks/useAssetFilterSort.ts`) and the normalization engine
(`Viewer/GLTFAsset.tsx`) — are embedded shallowly:

* JS strings are lists of characters; `toLowerCase`, `trim`, `includes`
  and `localeCompare` are modelled as the corresponding list functions;
* JS numbers are exact rationals (`ℚ`); `Math.round` is `⌊x + 1/2⌋`;
* `Date.parse` is modelled on the UTC ISO-8601 shape used throughout the
  repository, with `none` playing the role of `NaN`;
* `Array.prototype.sort` is modelled as a stable merge sort (the
  ECMAScript specification requires a stable sort), with the
  `SortCompare` rule that a `NaN` comparator result is treated as `+0`;
* the timer scheduler (`setTimeout`/`setInterval` in
  `hooks/useCompressionJob.ts`) is modelled as an explicit queue of
  pending completion callbacks executed in firing order;
* the scene-graph mutation in `GLTFAsset.tsx` is modelled against an
  explicit heap of `Object3D` values addressed by identifiers.
-/

open List

namespace AssetBrowser

/-! ## JS string model -/

/-- Models `String.prototype.toLowerCase` on the character-list embedding of
JS strings (ASCII-faithful). -/
def jsToLower (s : List Char) : List Char := s.map Char.toLower

/-- Models `String.prototype.trim`: strips whitespace from both ends. -/
def jsTrim (s : List Char) : List Char :=
  ((s.dropWhile Char.isWhitespace).reverse.dropWhile Char.isWhitespace).reverse

/-- Helper for `jsIncludes`: does `q` occur at the very start of `s`? -/
def strStartsWith : List Char → List Char → Bool
  | _, [] => true
  | [], _ :: _ => false
  | c :: s, d :: q => c == d && strStartsWith s q

/-- Models `s.includes(q)` of JS: `q` occurs contiguously somewhere in `s`. -/
def jsIncludes : List Char → List Char → Bool
  | [], q => q.isEmpty
  | c :: s, q => strStartsWith (c :: s) q || jsIncludes s q

/-- Strict lexicographic (code-point) comparison on character lists; the
order underlying the embedding of `localeCompare`. -/
def lexLt : List Char → List Char → Bool
  | [], [] => false
  | [], _ :: _ => true
  | _ :: _, [] => false
  | c :: s, d :: t => decide (c < d) || (c == d && lexLt s t)

/-- Models `a.localeCompare(b)` through its sign contract (negative, zero or
positive), with the locale order embedded as code-point order. -/
def jsStrCompare (s t : List Char) : Int :=
  if lexLt s t then -1 else if lexLt t s then 1 else 0

theorem lexLt_irrefl (s : List Char) : lexLt s s = false := by
  induction s with
  | nil => rfl
  | cons c s ih => simp [lexLt, ih, lt_irrefl]

theorem lexLt_trans {a b c : List Char} :
    lexLt a b = true → lexLt b c = true → lexLt a c = true := by
  induction a generalizing b c with
  | nil =>
    cases b <;> cases c <;> simp [lexLt]
  | cons x a ih =>
    cases b with
    | nil => simp [lexLt]
    | cons y b =>
      cases c with
      | nil => simp [lexLt]
      | cons z c =>
        intro h1 h2
        simp only [lexLt, Bool.or_eq_true, Bool.and_eq_true, decide_eq_true_eq,
          beq_iff_eq] at h1 h2 ⊢
        rcases h1 with h1 | ⟨rfl, h1⟩
        · rcases h2 with h2 | ⟨rfl, h2⟩
          · exact Or.inl (lt_trans h1 h2)
          · exact Or.inl h1
        · rcases h2 with h2 | ⟨rfl, h2⟩
          · exact Or.inl h2
          · exact Or.inr ⟨rfl, ih h1 h2⟩

theorem lexLt_asymm {a b : List Char} (h : lexLt a b = true) : lexLt b a = false := by
  by_contra hc
  have hba : lexLt b a = true := by
    cases hb : lexLt b a with
    | false => exact absurd hb hc
    | true => rfl
  have := lexLt_trans h hba
  rw [lexLt_irrefl] at this
  exact Bool.false_ne_true this

theorem lexLt_conn {a b : List Char} (h1 : lexLt a b = false) (h2 : lexLt b a = false) :
    a = b := by
  induction a generalizing b with
  | nil =>
    cases b with
    | nil => rfl
    | cons y b => simp [lexLt] at h1
  | cons x a ih =>
    cases b with
    | nil => simp [lexLt] at h2
    | cons y b =>
      simp only [lexLt, Bool.or_eq_false_iff, Bool.and_eq_false_imp,
        decide_eq_false_iff_not, beq_iff_eq] at h1 h2
      have hxy : x = y := le_antisymm (le_of_not_lt h2.1) (le_of_not_lt h1.1)
      subst hxy
      have := ih (h1.2 rfl) (h2.2 rfl)
      rw [this]

/-! ## Data model (`features/asset-pipeline/types.ts`) -/

/-- The `LOD` quality enum of `types.ts`. -/
inductive LOD where
  | HIGH
  | MED
  | LOW
deriving DecidableEq

/-- The `Asset` record of `types.ts`.  String-typed fields (including the
literal unions `shape` and `category`) are character lists; the numeric
fields are exact rationals. -/
structure Asset where
  id : List Char
  name : List Char
  polyCount : ℚ
  sizeMB : ℚ
  tags : List (List Char)
  createdAt : List Char
  shape : List Char
  color : Option (List Char)
  category : Option (List Char)
  gltfUrl : Option (List Char)
deriving DecidableEq

/-- Sample asset 1 of `data.ts`. -/
def heroShield : Asset :=
  { id := "1".data, name := "Hero Shield".data, polyCount := 820000, sizeMB := 180,
    tags := ["prop".data, "hero".data], createdAt := "2025-09-01T12:00:00Z".data,
    shape := "cylinder".data, color := some "#e11d48".data,
    category := some "film".data, gltfUrl := none }

/-- Sample asset 2 of `data.ts`. -/
def explorerHelmet : Asset :=
  { id := "2".data, name := "Explorer Helmet".data, polyCount := 1350000, sizeMB := 420,
    tags := ["helmet".data, "character".data], createdAt := "2025-08-21T09:00:00Z".data,
    shape := "sphere".data, color := some "#f59e0b".data,
    category := some "character".data, gltfUrl := some "/models/helmet.glb".data }

/-- Sample asset 3 of `data.ts`. -/
def cityBillboard : Asset :=
  { id := "3".data, name := "City Billboard".data, polyCount := 240000, sizeMB := 95,
    tags := ["environment".data, "marketing".data], createdAt := "2025-07-15T17:30:00Z".data,
    shape := "box".data, color := some "#6366f1".data,
    category := some "environment".data, gltfUrl := none }

/-- Sample asset 4 of `data.ts`. -/
def studioLamp : Asset :=
  { id := "4".data, name := "Studio Lamp".data, polyCount := 300000, sizeMB := 120,
    tags := ["prop".data, "lighting".data], createdAt := "2025-05-25T08:00:00Z".data,
    shape := "torus".data, color := some "#fbbf24".data,
    category := some "product".data, gltfUrl := none }

/-- The sample catalog `INITIAL_ASSETS` seeded into the reducer. -/
def INITIAL_ASSETS : List Asset :=
  [heroShield, explorerHelmet, cityBillboard, studioLamp]

/-! ## Compression transform (`lib/simulateCompression.ts`) -/

/-- JS `Math.round`: round half toward positive infinity. -/
def jsRound (q : ℚ) : ℤ := ⌊q + 1/2⌋

/-- The pure compression transform `simulateCompression` of
`lib/simulateCompression.ts`: multiplies the current `polyCount` and
`sizeMB` by the level's factors, rounds, and clamps to the floors
10000 and 20. -/
def simulateCompression (a : Asset) (lod : LOD) : Asset :=
  let lodFactor : ℚ := match lod with | .HIGH => 7/10 | .MED => 4/10 | .LOW => 2/10
  let texFactor : ℚ := match lod with | .HIGH => 8/10 | .MED => 5/10 | .LOW => 25/100
  { a with
    polyCount := max 10000 ((jsRound (a.polyCount * lodFactor) : ℤ) : ℚ),
    sizeMB := max 20 ((jsRound (a.sizeMB * texFactor) : ℤ) : ℚ) }

/-! ## Asset state machine (`App.tsx` reducer) -/

/-- The reducer's state record in `App.tsx` (`assets`, `selectedId`,
`filter`, `lod`).  `selectedId` is `none` for JS `null`. -/
structure State where
  assets : List Asset
  selectedId : Option (List Char)
  filter : List Char
  lod : LOD
deriving DecidableEq

/-- The tagged-union `Action` type of `App.tsx`. -/
inductive Action where
  | select (id : List Char)
  | filter (q : List Char)
  | set_lod (lod : LOD)
  | compress_selected (lod : LOD)

/-- The pure transition function `reducer` of `App.tsx`.  The
`compress_selected` branch mirrors the source exactly: the JS guard
`if (!state.selectedId) return state` is falsy both for `null` and for the
empty string, then `findIndex` resolves the selection and `-1` (here
`none`) is an explicit no-op; otherwise the asset is replaced positionally
in a fresh copy of the sequence. -/
def reducer (state : State) (action : Action) : State :=
  match action with
  | .select id => { state with selectedId := some id }
  | .filter q => { state with filter := q }
  | .set_lod lod => { state with lod := lod }
  | .compress_selected lod =>
    match state.selectedId with
    | none => state
    | some sid =>
      if sid.isEmpty then state
      else
        match state.assets.findIdx? (fun a => a.id == sid) with
        | none => state
        | some i =>
          match state.assets[i]? with
          | none => state
          | some a => { state with assets := state.assets.set i (simulateCompression a lod) }

/-- Replaying an action sequence through the reducer. -/
def replay (s : State) (actions : List Action) : State :=
  actions.foldl reducer s

/-! ## Filter/sort engine (`hooks/useAssetFilterSort.ts`) -/

/-- The filtering memo of `useAssetFilterSort`: normalize the query (trim,
then lowercase); the JS guard `if (!q) return assets` returns the input
list itself for an empty normalized query; otherwise keep the assets whose
lowercased name, any lowercased tag, or lowercased category contains the
query. -/
def filteredAssets (assets : List Asset) (query : List Char) : List Asset :=
  let q := jsToLower (jsTrim query)
  if q.isEmpty then assets
  else
    assets.filter fun a =>
      jsIncludes (jsToLower a.name) q ||
      a.tags.any (fun t => jsIncludes (jsToLower t) q) ||
      (match a.category with
       | some c => jsIncludes (jsToLower c) q
       | none => false)

/-- The specification's matching predicate, stated from its own words: a
query that is empty after trimming matches every asset; a non-empty query
matches an asset exactly when it is a case-insensitive substring of the
asset's name, of one of its tags, or of its category. -/
def specMatches (query : List Char) (a : Asset) : Bool :=
  let q := jsToLower (jsTrim query)
  q.isEmpty ||
    jsIncludes (jsToLower a.name) q ||
    a.tags.any (fun t => jsIncludes (jsToLower t) q) ||
    a.category.elim false (fun c => jsIncludes (jsToLower c) q)

/-- Reads a list of decimal digits as an integer. -/
def digitsToInt (l : List Char) : Int :=
  l.foldl (fun n c => 10 * n + ((c.toNat : Int) - 48)) 0

/-- Models the JS built-in `Date.parse` (a collaborator outside this
repository) on the fixed-width UTC ISO-8601 shape `YYYY-MM-DDTHH:MM:SSZ`
used by every timestamp in the repository; every other string yields
`none`, playing the role of `NaN`.  The returned value is the digit string
read as one number, which is strictly monotone in the instant for this
zero-padded fixed-width shape, so comparisons agree with the built-in's
millisecond values. -/
def jsDateParse : List Char → Option Int
  | [y1, y2, y3, y4, '-', m1, m2, '-', d1, d2, 'T',
     h1, h2, ':', mi1, mi2, ':', s1, s2, 'Z'] =>
    if [y1, y2, y3, y4, m1, m2, d1, d2, h1, h2, mi1, mi2, s1, s2].all Char.isDigit then
      some (digitsToInt [y1, y2, y3, y4, m1, m2, d1, d2, h1, h2, mi1, mi2, s1, s2])
    else none
  | _ => none

/-- The sort keys accepted by `useAssetFilterSort`. -/
inductive SortKey where
  | name
  | polyCount
  | createdAt
deriving DecidableEq

/-- The sort direction accepted by `useAssetFilterSort`. -/
inductive Dir where
  | asc
  | desc
deriving DecidableEq

/-- The comparator of `useAssetFilterSort`'s sorting memo (`byName`,
`byPoly`, `byDate`, selected by `sortKey`, with the direction folded in),
as the JS number it returns.  A `NaN` result — which arises exactly when
`Date.parse` failed on either side — is `none`. -/
def sortCompare (key : SortKey) (dir : Dir) (a b : Asset) : Option ℚ :=
  match key with
  | .name =>
    some (match dir with
      | .asc => (jsStrCompare a.name b.name : ℚ)
      | .desc => (jsStrCompare b.name a.name : ℚ))
  | .polyCount =>
    some (match dir with
      | .asc => a.polyCount - b.polyCount
      | .desc => b.polyCount - a.polyCount)
  | .createdAt =>
    match jsDateParse a.createdAt, jsDateParse b.createdAt with
    | some ta, some tb =>
      some (match dir with
        | .asc => ((ta - tb : ℤ) : ℚ)
        | .desc => ((tb - ta : ℤ) : ℚ))
    | _, _ => none

/-- The ECMAScript `SortCompare` step applied to the comparator: a `NaN`
comparator value is treated as `+0`. -/
def sortCompareNum (key : SortKey) (dir : Dir) (a b : Asset) : ℚ :=
  (sortCompare key dir a b).getD 0

/-- The "may be placed first" relation the stable sort consumes: the
comparator value is at most zero. -/
def jsSortLe (key : SortKey) (dir : Dir) (a b : Asset) : Bool :=
  decide (sortCompareNum key dir a b ≤ 0)

/-- Fuel-driven copy of `List.merge`, definitionally computable by the
kernel. -/
def mergeF {α : Type} : Nat → List α → List α → (α → α → Bool) → List α
  | 0, xs, ys, _ => xs ++ ys
  | _ + 1, [], ys, _ => ys
  | _ + 1, x :: xs, [], _ => x :: xs
  | fuel + 1, x :: xs, y :: ys, le =>
    if le x y then x :: mergeF fuel xs (y :: ys) le
    else y :: mergeF fuel (x :: xs) ys le

/-- Fuel-driven copy of the reference stable `List.mergeSort` (contiguous
halves, left-leaning merge), definitionally computable by the kernel. -/
def msortF {α : Type} : Nat → List α → (α → α → Bool) → List α
  | _, [], _ => []
  | _, [a], _ => [a]
  | 0, l, _ => l
  | fuel + 1, a :: b :: xs, le =>
    let l₁ := (a :: b :: xs).take ((xs.length + 2 + 1) / 2)
    let l₂ := (a :: b :: xs).drop ((xs.length + 2 + 1) / 2)
    mergeF (l₁.length + l₂.length) (msortF fuel l₁ le) (msortF fuel l₂ le) le

/-- The model of `Array.prototype.sort` with a comparator: the ECMAScript
specification requires a stable sort, modelled by the reference stable
merge sort. -/
def stableSort {α : Type} (l : List α) (le : α → α → Bool) : List α :=
  msortF l.length l le

theorem mergeF_eq_merge {α : Type} :
    ∀ (fuel : Nat) (xs ys : List α) (le : α → α → Bool),
      xs.length + ys.length ≤ fuel → mergeF fuel xs ys le = xs.merge ys le := by
  intro fuel
  induction fuel with
  | zero =>
    intro xs ys le h
    have hx : xs = [] := by cases xs <;> simp_all
    have hy : ys = [] := by cases ys <;> simp_all
    subst hx; subst hy
    simp [mergeF]
  | succ n ih =>
    intro xs ys le h
    cases xs with
    | nil => simp [mergeF]
    | cons x xs =>
      cases ys with
      | nil => simp [mergeF]
      | cons y ys =>
        simp only [mergeF, List.merge]
        by_cases hxy : le x y = true
        · rw [if_pos hxy, if_pos hxy, ih]
          simp at h
          simp
          omega
        · rw [if_neg hxy, if_neg hxy, ih]
          simp at h
          simp
          omega

theorem msortF_eq_mergeSort {α : Type} :
    ∀ (fuel : Nat) (l : List α) (le : α → α → Bool),
      l.length ≤ fuel → msortF fuel l le = l.mergeSort le := by
  intro fuel
  induction fuel with
  | zero =>
    intro l le h
    have : l = [] := by cases l <;> simp_all
    subst this
    simp [msortF]
  | succ n ih =>
    intro l le h
    match l with
    | [] => simp [msortF]
    | [a] => simp [msortF]
    | a :: b :: xs =>
      simp only [List.length_cons] at h
      simp only [msortF]
      rw [ih ((a :: b :: xs).take ((xs.length + 2 + 1) / 2)) le
          (by simp [List.length_take]; omega)]
      rw [ih ((a :: b :: xs).drop ((xs.length + 2 + 1) / 2)) le
          (by simp [List.length_drop]; omega)]
      rw [mergeF_eq_merge _ _ _ le
          (by simp [List.length_mergeSort, List.length_take, List.length_drop])]
      conv_rhs => rw [List.mergeSort]
      simp

theorem stableSort_eq_mergeSort {α : Type} (l : List α) (le : α → α → Bool) :
    stableSort l le = l.mergeSort le :=
  msortF_eq_mergeSort l.length l le (le_refl _)

/-- The sorting memo of `useAssetFilterSort`: copy the filtered list and
sort it with the selected comparator. -/
def sortAssets (l : List Asset) (key : SortKey) (dir : Dir) : List Asset :=
  stableSort l (jsSortLe key dir)

/-- The full hook `useAssetFilterSort`: the `filtered` memo paired with the
sorted `list` memo. -/
def useAssetFilterSort (assets : List Asset) (query : List Char)
    (key : SortKey) (dir : Dir) : List Asset × List Asset :=
  let filtered := filteredAssets assets query
  (filtered, sortAssets filtered key dir)

/-! ## Compression job scheduler (`hooks/useCompressionJob.ts`) -/

/-- One `setTimeout` completion registered by `run`: it fires at
`start + 1200` and dispatches the two commit transitions for the level it
captured. -/
structure CompletionTimer where
  fireAt : Nat
  lod : LOD
deriving DecidableEq

/-- What one completion callback commits: the hook's `onApply` is
`applyLOD` of `App.tsx`, which dispatches `set_lod next` and then
`compress_selected next`. -/
def jobCommit (lod : LOD) (s : State) : State :=
  reducer (reducer s (.set_lod lod)) (.compress_selected lod)

/-- The event loop keeps pending timers ordered by firing time, ties in
registration order — the single-threaded timer semantics. -/
def scheduleTimer (t : CompletionTimer) : List CompletionTimer → List CompletionTimer
  | [] => [t]
  | u :: rest => if u.fireAt ≤ t.fireAt then u :: scheduleTimer t rest else t :: u :: rest

/-- `run(next)` of `useCompressionJob`, invoked at time `now`: it registers
a completion at `now + 1200`; the source holds no generation token and
calls no `clearTimeout`, so every previously registered completion stays
pending. -/
def runCompressionJob (now : Nat) (next : LOD) (pending : List CompletionTimer) :
    List CompletionTimer :=
  scheduleTimer { fireAt := now + 1200, lod := next } pending

/-- Draining the pending timers in firing order; each completion commits
its two transitions into the state machine. -/
def fireTimers (s : State) (pending : List CompletionTimer) : State :=
  pending.foldl (fun st t => jobCommit t.lod st) s

/-- Final state after starting job A at `tA` and job B at `tB` with no
other dispatches in between, once every pending timer has fired. -/
def twoJobsFinal (s : State) (tA tB : Nat) (lodA lodB : LOD) : State :=
  fireTimers s (runCompressionJob tB lodB (runCompressionJob tA lodA []))

/-! ## Normalization engine (`Viewer/GLTFAsset.tsx`) -/

/-- Three-component vector over exact rationals. -/
structure Vec3 where
  x : ℚ
  y : ℚ
  z : ℚ
deriving DecidableEq

/-- Componentwise subtraction (`Vector3.sub`). -/
def vsub (a b : Vec3) : Vec3 := ⟨a.x - b.x, a.y - b.y, a.z - b.z⟩

/-- Componentwise minimum (`Box3.expandByPoint`, lower corner). -/
def vmin (a b : Vec3) : Vec3 := ⟨min a.x b.x, min a.y b.y, min a.z b.z⟩

/-- Componentwise maximum (`Box3.expandByPoint`, upper corner). -/
def vmax (a b : Vec3) : Vec3 := ⟨max a.x b.x, max a.y b.y, max a.z b.z⟩

/-- A `THREE.Object3D` as the normalization engine observes it: the root
transform (position, Euler rotation, scale) plus the world-space geometry
points the graph contributes when the root transform is the identity. -/
structure Object3D where
  position : Vec3
  rotationE : Vec3
  scale : Vec3
  geometry : List Vec3
deriving DecidableEq

/-- One step of `Box3.setFromObject`'s expansion over geometry points. -/
def bboxFold (b : Option (Vec3 × Vec3)) (p : Vec3) : Option (Vec3 × Vec3) :=
  match b with
  | none => some (p, p)
  | some (mn, mx) => some (vmin mn p, vmax mx p)

/-- `new THREE.Box3().setFromObject(root)`: the axis-aligned bounding box
(min and max corner) over all geometry points, `none` for the empty box. -/
def setFromObject (pts : List Vec3) : Option (Vec3 × Vec3) :=
  pts.foldl bboxFold none

/-- `Box3.getSize`: the zero vector for an empty box, else `max - min`. -/
def boxGetSize : Option (Vec3 × Vec3) → Vec3
  | none => ⟨0, 0, 0⟩
  | some (mn, mx) => vsub mx mn

/-- `Box3.getCenter`: the zero vector for an empty box, else the midpoint
of the two corners. -/
def boxGetCenter : Option (Vec3 × Vec3) → Vec3
  | none => ⟨0, 0, 0⟩
  | some (mn, mx) => ⟨(mn.x + mx.x) / 2, (mn.y + mx.y) / 2, (mn.z + mx.z) / 2⟩

/-- The `TARGET_SIZE` constant of `GLTFAsset.tsx`. -/
def TARGET_SIZE : ℚ := 3/2

/-- The normalization applied inside `GLTFAsset`'s `useMemo` to the cloned
root: reset the top-level transform to the identity, measure the bounds of
the clean graph, guard a degenerate largest extent with `|| 1`, recenter
by subtracting the box center, and apply the uniform fitting scale. -/
def gltfNormalize (scene : Object3D) : Object3D :=
  let root : Object3D :=
    { scene with position := ⟨0, 0, 0⟩, rotationE := ⟨0, 0, 0⟩, scale := ⟨1, 1, 1⟩ }
  let box := setFromObject root.geometry
  let size := boxGetSize box
  let center := boxGetCenter box
  let maxDim : ℚ :=
    if max size.x (max size.y size.z) = 0 then 1 else max size.x (max size.y size.z)
  let root1 := { root with position := vsub root.position center }
  let s := TARGET_SIZE / maxDim
  { root1 with scale := ⟨s, s, s⟩ }

/-- A heap of scene-graph objects addressed by identifiers, for reasoning
about shared mutable graphs (the `useGLTF` cache shares one graph between
consumers). -/
def Heap : Type := Nat → Object3D

/-- Pointwise store update of a heap. -/
def hupdate (h : Heap) (i : Nat) (v : Object3D) : Heap :=
  fun j => if j = i then v else h j

/-- `GLTFAsset`'s `useMemo` body acting on the heap: `skeletonClone`
allocates a fresh object `fresh` holding a deep copy of the object at
`sceneId`, and every subsequent mutation (the transform resets, the
recentering `position.sub(center)`, the `scale.setScalar`) writes through
the clone.  Returns the final heap together with the id of the normalized
root handed to `<primitive>`. -/
def gltfNormalizeHeap (h : Heap) (sceneId fresh : Nat) : Heap × Nat :=
  let h1 := hupdate h fresh (h sceneId)
  let h2 := hupdate h1 fresh (gltfNormalize (h1 fresh))
  (h2, fresh)

/-- Least element of a list of rationals (`0` for the empty list); used to
state the specification's bounding-box quantities. -/
def listMinQ : List ℚ → ℚ
  | [] => 0
  | a :: t => t.foldl min a

/-- Greatest element of a list of rationals (`0` for the empty list). -/
def listMaxQ : List ℚ → ℚ
  | [] => 0
  | a :: t => t.foldl max a

/-- The specification's bounding-box center: per-axis midpoint of least
and greatest coordinate. -/
def aabbCenter (g : List Vec3) : Vec3 :=
  ⟨(listMinQ (g.map Vec3.x) + listMaxQ (g.map Vec3.x)) / 2,
   (listMinQ (g.map Vec3.y) + listMaxQ (g.map Vec3.y)) / 2,
   (listMinQ (g.map Vec3.z) + listMaxQ (g.map Vec3.z)) / 2⟩

/-- The specification's per-axis extents: greatest minus least coordinate
per axis. -/
def aabbExtent (g : List Vec3) : Vec3 :=
  ⟨listMaxQ (g.map Vec3.x) - listMinQ (g.map Vec3.x),
   listMaxQ (g.map Vec3.y) - listMinQ (g.map Vec3.y),
   listMaxQ (g.map Vec3.z) - listMinQ (g.map Vec3.z)⟩

/-- The largest of the three extents. -/
def maxExtent (g : List Vec3) : ℚ :=
  max (aabbExtent g).x (max (aabbExtent g).y (aabbExtent g).z)

theorem bboxFold_go (ps : List Vec3) :
    ∀ (mn mx : Vec3),
      ps.foldl bboxFold (some (mn, mx)) =
        some (⟨ps.foldl (fun q v => min q v.x) mn.x,
               ps.foldl (fun q v => min q v.y) mn.y,
               ps.foldl (fun q v => min q v.z) mn.z⟩,
              ⟨ps.foldl (fun q v => max q v.x) mx.x,
               ps.foldl (fun q v => max q v.y) mx.y,
               ps.foldl (fun q v => max q v.z) mx.z⟩) := by
  induction ps with
  | nil => intro mn mx; rfl
  | cons p ps ih =>
    intro mn mx
    simp only [List.foldl_cons, bboxFold, vmin, vmax]
    rw [ih]

theorem setFromObject_cons (p : Vec3) (ps : List Vec3) :
    setFromObject (p :: ps) =
      some (⟨ps.foldl (fun q v => min q v.x) p.x,
             ps.foldl (fun q v => min q v.y) p.y,
             ps.foldl (fun q v => min q v.z) p.z⟩,
            ⟨ps.foldl (fun q v => max q v.x) p.x,
             ps.foldl (fun q v => max q v.y) p.y,
             ps.foldl (fun q v => max q v.z) p.z⟩) := by
  simp only [setFromObject, List.foldl_cons, bboxFold]
  exact bboxFold_go ps p p

/-! ## Shared concrete fixtures -/

/-- The initial state passed to `useReducer` in `App.tsx`: the sample
catalog, the first asset selected, empty filter, `HIGH` quality. -/
def initialState : State :=
  { assets := INITIAL_ASSETS, selectedId := some "1".data, filter := [], lod := .HIGH }

/-- A state whose selection is `null`. -/
def noneSelState : State :=
  { assets := INITIAL_ASSETS, selectedId := none, filter := [], lod := .HIGH }

/-- An asset already below both compression floors. -/
def lowPolyAsset : Asset :=
  { id := "5".data, name := "Tiny Prop".data, polyCount := 5000, sizeMB := 10,
    tags := [], createdAt := "2025-01-01T00:00:00Z".data, shape := "box".data,
    color := none, category := none, gltfUrl := none }

/-! ## Factor tables as the specification states them -/

/-- The specification's geometry factor table. -/
def geometryFactorSpec : LOD → ℚ
  | .HIGH => 7/10
  | .MED => 4/10
  | .LOW => 2/10

/-- The specification's texture factor table. -/
def textureFactorSpec : LOD → ℚ
  | .HIGH => 8/10
  | .MED => 5/10
  | .LOW => 25/100

/-! ## Claim theorems -/

/-- C4: for every asset and quality level the compression transform
returns `polyCount = max 10000 (round (polyCount * f))` and
`sizeMB = max 20 (round (sizeMB * g))` with the specification's factor
tables, computed from the current field values; every other field is
unchanged; applying it again recomputes from the new current values; and
while a value is above its floor another application strictly shrinks
it. -/
theorem spec_C4 (a : Asset) (lod : LOD) :
    (simulateCompression a lod).polyCount
        = max 10000 ((jsRound (a.polyCount * geometryFactorSpec lod) : ℤ) : ℚ)
    ∧ (simulateCompression a lod).sizeMB
        = max 20 ((jsRound (a.sizeMB * textureFactorSpec lod) : ℤ) : ℚ)
    ∧ (simulateCompression a lod).id = a.id
    ∧ (simulateCompression a lod).name = a.name
    ∧ (simulateCompression a lod).tags = a.tags
    ∧ (simulateCompression a lod).createdAt = a.createdAt
    ∧ (simulateCompression a lod).shape = a.shape
    ∧ (simulateCompression a lod).color = a.color
    ∧ (simulateCompression a lod).category = a.category
    ∧ (simulateCompression a lod).gltfUrl = a.gltfUrl
    ∧ (simulateCompression (simulateCompression a lod) lod).polyCount
        = max 10000 ((jsRound ((simulateCompression a lod).polyCount * geometryFactorSpec lod) : ℤ) : ℚ)
    ∧ (10000 < a.polyCount → (simulateCompression a lod).polyCount < a.polyCount)
    ∧ (20 < a.sizeMB → (simulateCompression a lod).sizeMB < a.sizeMB) := by
  refine ⟨?_, ?_, rfl, rfl, rfl, rfl, rfl, rfl, rfl, rfl, ?_, ?_, ?_⟩
  · cases lod <;> rfl
  · cases lod <;> rfl
  · cases lod <;> rfl
  · intro h
    cases lod <;>
      · apply max_lt h
        simp only [simulateCompression, jsRound]
        linarith [Int.floor_le (a.polyCount * (7/10) + 1/2),
          Int.floor_le (a.polyCount * (4/10) + 1/2),
          Int.floor_le (a.polyCount * (2/10) + 1/2)]
  · intro h
    cases lod <;>
      · apply max_lt h
        simp only [simulateCompression, jsRound]
        linarith [Int.floor_le (a.sizeMB * (8/10) + 1/2),
          Int.floor_le (a.sizeMB * (5/10) + 1/2),
          Int.floor_le (a.sizeMB * (25/100) + 1/2)]

/-- C4 witness: the hypotheses of `spec_C4` hold at the Hero Shield sample
asset, whose strict shrink under `HIGH` follows. -/
theorem spec_C4_witness :
    (10000 : ℚ) < heroShield.polyCount
    ∧ (20 : ℚ) < heroShield.sizeMB
    ∧ (simulateCompression heroShield .HIGH).polyCount < heroShield.polyCount
    ∧ (simulateCompression heroShield .HIGH).sizeMB < heroShield.sizeMB := by
  obtain ⟨-, -, -, -, -, -, -, -, -, -, -, h12, h13⟩ := spec_C4 heroShield .HIGH
  exact ⟨by norm_num [heroShield], by norm_num [heroShield],
         h12 (by norm_num [heroShield]), h13 (by norm_num [heroShield])⟩

/-- C10: the transform's outputs always respect the floors
`polyCount ≥ 10000` and `sizeMB ≥ 20`, and on an asset already below the
floors it raises the values up to them, so compression is not
non-increasing in general. -/
theorem spec_C10 :
    (∀ (a : Asset) (lod : LOD),
        10000 ≤ (simulateCompression a lod).polyCount
        ∧ 20 ≤ (simulateCompression a lod).sizeMB)
    ∧ (simulateCompression lowPolyAsset .HIGH).polyCount = 10000
    ∧ (simulateCompression lowPolyAsset .HIGH).sizeMB = 20
    ∧ lowPolyAsset.polyCount < (simulateCompression lowPolyAsset .HIGH).polyCount
    ∧ lowPolyAsset.sizeMB < (simulateCompression lowPolyAsset .HIGH).sizeMB := by
  refine ⟨fun a lod => ⟨le_max_left _ _, le_max_left _ _⟩, ?_, ?_, ?_, ?_⟩ <;>
    · show _
      simp only [simulateCompression, lowPolyAsset, jsRound]
      norm_num

/-- C5: a `compress_selected` transition whose selection does not resolve —
the selection is `null`, or no asset in the current sequence carries the
selected id — returns the input state itself, an explicit no-op. -/
theorem spec_C5 (s : State) (lod : LOD)
    (h : s.selectedId = none ∨ ∀ a ∈ s.assets, some a.id ≠ s.selectedId) :
    reducer s (.compress_selected lod) = s := by
  cases hsel : s.selectedId with
  | none => simp [reducer, hsel]
  | some sid =>
    have hall : ∀ a ∈ s.assets, some a.id ≠ some sid := by
      rcases h with h | h
      · rw [hsel] at h; exact absurd h (Option.some_ne_none sid)
      · intro a ha; rw [← hsel]; exact h a ha
    cases hempty : sid.isEmpty with
    | true => simp [reducer, hsel, hempty]
    | false =>
      have hfind : s.assets.findIdx? (fun a => a.id == sid) = none := by
        rw [List.findIdx?_eq_none_iff]
        intro a ha
        have h2 := hall a ha
        simp only [ne_eq, Option.some.injEq] at h2
        simpa using h2
      simp [reducer, hsel, hempty, hfind]

/-- C5 witness: the hypothesis of `spec_C5` holds at a state whose
selection is `null`, and the transition leaves that state untouched. -/
theorem spec_C5_witness :
    noneSelState.selectedId = none
    ∧ reducer noneSelState (.compress_selected .LOW) = noneSelState :=
  ⟨rfl, spec_C5 noneSelState .LOW (Or.inl rfl)⟩

/-- C8: the reducer is deterministic — identical (state, action) pairs give
identical outputs, and replaying identical action sequences from identical
initial states gives identical final states. -/
theorem spec_C8 :
    (∀ (s₁ s₂ : State) (a₁ a₂ : Action),
      s₁ = s₂ → a₁ = a₂ → reducer s₁ a₁ = reducer s₂ a₂)
    ∧ (∀ (s₁ s₂ : State) (l₁ l₂ : List Action),
      s₁ = s₂ → l₁ = l₂ → replay s₁ l₁ = replay s₂ l₂) := by
  constructor
  · intro s₁ s₂ a₁ a₂ hs ha; rw [hs, ha]
  · intro s₁ s₂ l₁ l₂ hs hl; rw [hs, hl]

/-- C8 witness: the equalities of `spec_C8` at the app's initial state and
a concrete action sequence. -/
theorem spec_C8_witness :
    reducer initialState (.select "2".data) = reducer initialState (.select "2".data)
    ∧ replay initialState [.set_lod .LOW, .compress_selected .LOW]
        = replay initialState [.set_lod .LOW, .compress_selected .LOW] :=
  ⟨spec_C8.1 initialState initialState _ _ rfl rfl,
   spec_C8.2 initialState initialState _ _ rfl rfl⟩

/-- C3: the filter memo returns exactly the assets matched by the
specification's predicate — empty-after-trimming queries match everything
and return the input list unchanged, and a non-empty query matches via
case-insensitive substring against name, any tag, or category. -/
theorem spec_C3 (assets : List Asset) (query : List Char) :
    filteredAssets assets query = assets.filter (specMatches query)
    ∧ ((jsTrim query).isEmpty = true → filteredAssets assets query = assets) := by
  constructor
  · cases hq : (jsToLower (jsTrim query)).isEmpty with
    | true =>
      have h1 : filteredAssets assets query = assets := by
        simp [filteredAssets, hq]
      have h2 : assets.filter (specMatches query) = assets :=
        calc assets.filter (specMatches query)
            = assets.filter (fun _ => true) :=
              List.filter_congr (fun a _ => by simp [specMatches, hq])
          _ = assets := List.filter_true assets
      rw [h1, h2]
    | false =>
      simp only [filteredAssets, hq, Bool.false_eq_true, if_false]
      exact List.filter_congr (fun a _ => by
        cases hc : a.category <;> simp [specMatches, hq, hc])
  · intro ht
    have hq : (jsToLower (jsTrim query)).isEmpty = true := by
      rw [List.isEmpty_iff] at ht ⊢
      simp [jsToLower, ht]
    simp [filteredAssets, hq]

/-- C3 witness: a whitespace-only query satisfies the hypothesis and the
filter returns the sample catalog itself. -/
theorem spec_C3_witness :
    (jsTrim "  ".data).isEmpty = true
    ∧ filteredAssets INITIAL_ASSETS "  ".data = INITIAL_ASSETS :=
  ⟨by decide, (spec_C3 INITIAL_ASSETS "  ".data).2 (by decide)⟩

/-- C1 counterexample: start job A (`LOW`) at time 0 and job B (`HIGH`) at
time 600, before A's completion at 1200, from the app's initial state.
Were A's pending completion invalidated, the final state would be exactly
the one where only B's completion commits; it is not — A's commit lands
first and the compression compounds. -/
theorem spec_C1_counterexample :
    twoJobsFinal initialState 0 600 .LOW .HIGH ≠ jobCommit .HIGH initialState := by
  intro heq
  have h2 := congrArg (fun st => (st.assets.head?).map Asset.polyCount) heq
  simp only [twoJobsFinal, runCompressionJob, scheduleTimer, fireTimers, jobCommit,
    reducer, initialState, INITIAL_ASSETS, heroShield, explorerHelmet, cityBillboard,
    studioLamp, List.foldl, List.findIdx?_cons, List.findIdx?_nil, simulateCompression,
    List.isEmpty, List.set, List.head?, Option.map] at h2
  norm_num [jsRound, max_def] at h2

/-- C1 amended: the hook holds no generation token and cancels nothing, so
when job B starts before job A's completion fires, both completions stay
pending and commit in start order: the final state is B's commit applied
after A's commit — A's `set_lod`/`compress_selected` effect does land. -/
theorem spec_C1_amended (s : State) (tA tB : Nat) (lodA lodB : LOD) (h : tA < tB) :
    twoJobsFinal s tA tB lodA lodB = jobCommit lodB (jobCommit lodA s) := by
  have hsched : scheduleTimer { fireAt := tB + 1200, lod := lodB }
      [{ fireAt := tA + 1200, lod := lodA }]
      = [{ fireAt := tA + 1200, lod := lodA }, { fireAt := tB + 1200, lod := lodB }] := by
    simp only [scheduleTimer]
    rw [if_pos (by omega : tA + 1200 ≤ tB + 1200)]
  show fireTimers s (scheduleTimer _ (scheduleTimer _ [])) = _
  rw [show scheduleTimer { fireAt := tA + 1200, lod := lodA } ([] : List CompletionTimer)
      = [{ fireAt := tA + 1200, lod := lodA }] from rfl, hsched]
  rfl

/-- C1 witness: the amended statement at the app's initial state with job A
(`LOW`) started at 0 and job B (`HIGH`) at 600. -/
theorem spec_C1_witness :
    (0 : Nat) < 600
    ∧ twoJobsFinal initialState 0 600 .LOW .HIGH
        = jobCommit .HIGH (jobCommit .LOW initialState) :=
  ⟨by decide, spec_C1_amended initialState 0 600 .LOW .HIGH (by decide)⟩

/-- A demonstration graph with geometry points `(0,0,0)` and `(2,4,8)` —
extents `(2,4,8)`, center `(1,2,4)` — behind a non-identity initial root
transform. -/
def demoGraph : Object3D :=
  { position := ⟨9, 9, 9⟩, rotationE := ⟨1, 2, 3⟩, scale := ⟨2, 2, 2⟩,
    geometry := [⟨0, 0, 0⟩, ⟨2, 4, 8⟩] }

/-- A single-point graph: zero extents in every axis. -/
def pointGraph : Object3D :=
  { position := ⟨4, 4, 4⟩, rotationE := ⟨0, 0, 0⟩, scale := ⟨1, 1, 1⟩,
    geometry := [⟨5, 6, 7⟩] }

/-- A heap placing the demonstration graph everywhere. -/
def demoHeap : Heap := fun _ => demoGraph

/-- C6: normalization recenters by the bounding-box center (translation
`−center`) and applies the uniform scale `TARGET_SIZE / maxExtent`, with a
degenerate largest extent of zero substituted by 1 so the scale is
`TARGET_SIZE`; on extents `(2,4,8)` the scale is `3/16 = 0.1875`, and on a
single point the scale is `3/2` with no division fault. -/
theorem spec_C6 :
    (∀ g : Object3D, g.geometry ≠ [] →
      (gltfNormalize g).position = vsub ⟨0, 0, 0⟩ (aabbCenter g.geometry)
      ∧ (gltfNormalize g).scale =
          (if maxExtent g.geometry = 0
           then ⟨TARGET_SIZE, TARGET_SIZE, TARGET_SIZE⟩
           else ⟨TARGET_SIZE / maxExtent g.geometry,
                 TARGET_SIZE / maxExtent g.geometry,
                 TARGET_SIZE / maxExtent g.geometry⟩))
    ∧ (gltfNormalize demoGraph).scale = ⟨3/16, 3/16, 3/16⟩
    ∧ (gltfNormalize demoGraph).position = ⟨-1, -2, -4⟩
    ∧ (gltfNormalize pointGraph).scale = ⟨3/2, 3/2, 3/2⟩
    ∧ (gltfNormalize pointGraph).position = ⟨-5, -6, -7⟩ := by
  refine ⟨?_, ?_, ?_, ?_, ?_⟩
  · intro g hg
    obtain ⟨p, ps, hgeo⟩ : ∃ p ps, g.geometry = p :: ps := by
      cases hgeo : g.geometry with
      | nil => exact absurd hgeo hg
      | cons p ps => exact ⟨p, ps, rfl⟩
    have hminx : listMinQ ((p :: ps).map Vec3.x) = ps.foldl (fun q v => min q v.x) p.x := by
      simp [listMinQ, List.foldl_map]
    have hminy : listMinQ ((p :: ps).map Vec3.y) = ps.foldl (fun q v => min q v.y) p.y := by
      simp [listMinQ, List.foldl_map]
    have hminz : listMinQ ((p :: ps).map Vec3.z) = ps.foldl (fun q v => min q v.z) p.z := by
      simp [listMinQ, List.foldl_map]
    have hmaxx : listMaxQ ((p :: ps).map Vec3.x) = ps.foldl (fun q v => max q v.x) p.x := by
      simp [listMaxQ, List.foldl_map]
    have hmaxy : listMaxQ ((p :: ps).map Vec3.y) = ps.foldl (fun q v => max q v.y) p.y := by
      simp [listMaxQ, List.foldl_map]
    have hmaxz : listMaxQ ((p :: ps).map Vec3.z) = ps.foldl (fun q v => max q v.z) p.z := by
      simp [listMaxQ, List.foldl_map]
    constructor
    · simp only [gltfNormalize, hgeo, setFromObject_cons, boxGetCenter, boxGetSize,
        vsub, aabbCenter, hminx, hminy, hminz, hmaxx, hmaxy, hmaxz]
    · simp only [gltfNormalize, hgeo, setFromObject_cons, boxGetCenter, boxGetSize,
        vsub, maxExtent, aabbExtent, hminx, hminy, hminz, hmaxx, hmaxy, hmaxz,
        TARGET_SIZE]
      by_cases hz :
          max (ps.foldl (fun q v => max q v.x) p.x - ps.foldl (fun q v => min q v.x) p.x)
            (max (ps.foldl (fun q v => max q v.y) p.y - ps.foldl (fun q v => min q v.y) p.y)
              (ps.foldl (fun q v => max q v.z) p.z - ps.foldl (fun q v => min q v.z) p.z)) = 0
      · rw [if_pos hz, if_pos hz, div_one]
      · rw [if_neg hz, if_neg hz]
  · norm_num [gltfNormalize, demoGraph, setFromObject, bboxFold, boxGetSize,
      boxGetCenter, vmin, vmax, vsub, TARGET_SIZE, max_def, min_def]
  · norm_num [gltfNormalize, demoGraph, setFromObject, bboxFold, boxGetSize,
      boxGetCenter, vmin, vmax, vsub, TARGET_SIZE, max_def, min_def]
  · norm_num [gltfNormalize, pointGraph, setFromObject, bboxFold, boxGetSize,
      boxGetCenter, vmin, vmax, vsub, TARGET_SIZE, max_def, min_def]
  · norm_num [gltfNormalize, pointGraph, setFromObject, bboxFold, boxGetSize,
      boxGetCenter, vmin, vmax, vsub, TARGET_SIZE, max_def, min_def]

/-- C6 witness: the hypothesis of `spec_C6`'s universal part holds at the
demonstration graph, whose translation is minus its bounding-box center. -/
theorem spec_C6_witness :
    demoGraph.geometry ≠ []
    ∧ (gltfNormalize demoGraph).position = vsub ⟨0, 0, 0⟩ (aabbCenter demoGraph.geometry) :=
  ⟨by simp [demoGraph], (spec_C6.1 demoGraph (by simp [demoGraph])).1⟩

/-- C7: normalization works on the fresh clone only — the shared source
graph's position, rotation and scale are untouched by
`gltfNormalizeHeap`, so concurrent consumers of the same source cannot
observe each other's normalization. -/
theorem spec_C7 (h : Heap) (sceneId fresh : Nat) (hne : fresh ≠ sceneId) :
    (gltfNormalizeHeap h sceneId fresh).1 sceneId = h sceneId := by
  simp only [gltfNormalizeHeap, hupdate]
  rw [if_neg (Ne.symm hne), if_neg (Ne.symm hne)]

/-- C7 witness: a fresh clone id distinct from the source id leaves the
source object unchanged on the demonstration heap. -/
theorem spec_C7_witness :
    (1 : Nat) ≠ 0 ∧ (gltfNormalizeHeap demoHeap 0 1).1 0 = demoHeap 0 :=
  ⟨by decide, spec_C7 demoHeap 0 1 (by decide)⟩

/-! ## Stability of the sort -/

/-- Key equality for stability: the two assets carry the same sort key. -/
def sortKeyEqb (key : SortKey) (a b : Asset) : Bool :=
  match key with
  | .name => a.name == b.name
  | .polyCount => decide (a.polyCount = b.polyCount)
  | .createdAt => jsDateParse a.createdAt == jsDateParse b.createdAt

/-- The subsequence of `l` whose sort key equals that of `c`. -/
def keyClass (key : SortKey) (c : Asset) (l : List Asset) : List Asset :=
  l.filter (fun a => sortKeyEqb key a c)

/-- Stability of the sort at `(l, key, dir)`: every key class appears in
the output in its input order. -/
def stableFor (l : List Asset) (key : SortKey) (dir : Dir) : Prop :=
  ∀ c : Asset, keyClass key c (sortAssets l key dir) = keyClass key c l

theorem mergeSort_filter_stable {α : Type} (le : α → α → Bool)
    (htrans : ∀ a b c, le a b = true → le b c = true → le a c = true)
    (htotal : ∀ a b, le a b || le b a)
    (l : List α) (P : α → Bool)
    (hP : ∀ a b, P a = true → P b = true → le a b = true) :
    (l.mergeSort le).filter P = l.filter P := by
  have pairwise_aux : ∀ (m : List α), (∀ a ∈ m, P a = true) →
      m.Pairwise (fun a b => le a b = true) := by
    intro m
    induction m with
    | nil => intro _; exact List.Pairwise.nil
    | cons x xs ih =>
      intro hm
      refine List.Pairwise.cons ?_ (ih fun a ha => hm a (List.mem_cons_of_mem x ha))
      intro b hb
      exact hP x b (hm x (List.mem_cons_self x xs)) (hm b (List.mem_cons_of_mem x hb))
  have h1 : l.filter P <+ l.mergeSort le :=
    List.sublist_mergeSort htrans htotal
      (pairwise_aux _ fun a ha => (List.mem_filter.mp ha).2) (List.filter_sublist l)
  have h2 : (l.filter P).filter P = l.filter P :=
    List.filter_eq_self.mpr fun a ha => (List.mem_filter.mp ha).2
  have h3 : l.filter P <+ (l.mergeSort le).filter P := by
    have := h1.filter P
    rwa [h2] at this
  have h4 : ((l.mergeSort le).filter P).length = (l.filter P).length :=
    ((List.mergeSort_perm l le).filter P).length_eq
  exact (h3.eq_of_length h4.symm).symm

theorem mergeSort_congr {α : Type} {r s : α → α → Bool} (l : List α)
    (h : ∀ a ∈ l, ∀ b ∈ l, r a b = s a b) :
    l.mergeSort r = l.mergeSort s := by
  have h' : ∀ a ∈ l, ∀ b ∈ l, r a b = s ((fun a => a) a) ((fun a => a) b) := by
    simpa using h
  have := @List.map_mergeSort α α r s (fun a => a) l h'
  simpa using this

theorem jsStrCompare_nonpos {s t : List Char} :
    jsStrCompare s t ≤ 0 ↔ lexLt t s = false := by
  cases h1 : lexLt s t with
  | true => simp [jsStrCompare, h1, lexLt_asymm h1]
  | false =>
    cases h2 : lexLt t s with
    | true => simp [jsStrCompare, h1, h2]
    | false => simp [jsStrCompare, h1, h2]

theorem notLexLt_trans {a b c : List Char}
    (h1 : lexLt b a = false) (h2 : lexLt c b = false) : lexLt c a = false := by
  cases h3 : lexLt c a with
  | false => rfl
  | true =>
    exfalso
    cases hab : lexLt a b with
    | true =>
      have hcb := lexLt_trans h3 hab
      rw [h2] at hcb
      exact Bool.false_ne_true hcb
    | false =>
      have heq := lexLt_conn hab h1
      rw [heq] at h3
      rw [h2] at h3
      exact Bool.false_ne_true h3

theorem notLexLt_total (a b : List Char) : lexLt b a = false ∨ lexLt a b = false := by
  cases h : lexLt a b with
  | false => exact Or.inr rfl
  | true => exact Or.inl (lexLt_asymm h)

theorem jsSortLe_name_asc (a b : Asset) :
    jsSortLe .name .asc a b = true ↔ lexLt b.name a.name = false := by
  simp [jsSortLe, sortCompareNum, sortCompare, Int.cast_nonpos, jsStrCompare_nonpos]

theorem jsSortLe_name_desc (a b : Asset) :
    jsSortLe .name .desc a b = true ↔ lexLt a.name b.name = false := by
  simp [jsSortLe, sortCompareNum, sortCompare, Int.cast_nonpos, jsStrCompare_nonpos]

theorem jsSortLe_poly_asc (a b : Asset) :
    jsSortLe .polyCount .asc a b = true ↔ a.polyCount ≤ b.polyCount := by
  simp [jsSortLe, sortCompareNum, sortCompare, sub_nonpos]

theorem jsSortLe_poly_desc (a b : Asset) :
    jsSortLe .polyCount .desc a b = true ↔ b.polyCount ≤ a.polyCount := by
  simp [jsSortLe, sortCompareNum, sortCompare, sub_nonpos]

/-- The comparator the date sort coincides with on all-parsable inputs:
compare the parsed instants directly. -/
def dateKeyLe (dir : Dir) (a b : Asset) : Bool :=
  match dir with
  | .asc => decide ((jsDateParse a.createdAt).getD 0 ≤ (jsDateParse b.createdAt).getD 0)
  | .desc => decide ((jsDateParse b.createdAt).getD 0 ≤ (jsDateParse a.createdAt).getD 0)

theorem jsSortLe_date_eq (dir : Dir) (a b : Asset)
    (ha : (jsDateParse a.createdAt).isSome = true)
    (hb : (jsDateParse b.createdAt).isSome = true) :
    jsSortLe .createdAt dir a b = dateKeyLe dir a b := by
  obtain ⟨ta, hta⟩ := Option.isSome_iff_exists.mp ha
  obtain ⟨tb, htb⟩ := Option.isSome_iff_exists.mp hb
  cases dir <;>
    simp [jsSortLe, sortCompareNum, sortCompare, dateKeyLe, hta, htb,
      decide_eq_decide, Int.cast_nonpos, sub_nonpos]

/-- C9 amended: the sort is stable for the `name` and `polyCount` keys in
both directions, and for `createdAt` provided every timestamp in the list
parses; an unparsable timestamp makes the comparator return `NaN`
(treated as a tie with everything), which breaks its transitivity, and
equal-key order is then no longer guaranteed. -/
theorem spec_C9_amended (l : List Asset) (dir : Dir) :
    stableFor l .name dir
    ∧ stableFor l .polyCount dir
    ∧ (l.all (fun a => (jsDateParse a.createdAt).isSome) = true →
        stableFor l .createdAt dir) := by
  refine ⟨?_, ?_, ?_⟩
  · intro c
    rw [sortAssets, stableSort_eq_mergeSort, keyClass, keyClass]
    apply mergeSort_filter_stable
    · intro a b c' h1 h2
      cases dir
      · rw [jsSortLe_name_asc] at h1 h2 ⊢
        exact notLexLt_trans h1 h2
      · rw [jsSortLe_name_desc] at h1 h2 ⊢
        exact notLexLt_trans h2 h1
    · intro a b
      cases dir
      · rw [Bool.or_eq_true, jsSortLe_name_asc, jsSortLe_name_asc]
        exact notLexLt_total a.name b.name
      · rw [Bool.or_eq_true, jsSortLe_name_desc, jsSortLe_name_desc]
        exact notLexLt_total b.name a.name
    · intro a b ha hb
      simp only [sortKeyEqb, beq_iff_eq] at ha hb
      cases dir
      · rw [jsSortLe_name_asc, ha, hb]
        exact lexLt_irrefl c.name
      · rw [jsSortLe_name_desc, ha, hb]
        exact lexLt_irrefl c.name
  · intro c
    rw [sortAssets, stableSort_eq_mergeSort, keyClass, keyClass]
    apply mergeSort_filter_stable
    · intro a b c' h1 h2
      cases dir
      · rw [jsSortLe_poly_asc] at h1 h2 ⊢
        exact le_trans h1 h2
      · rw [jsSortLe_poly_desc] at h1 h2 ⊢
        exact le_trans h2 h1
    · intro a b
      cases dir
      · rw [Bool.or_eq_true, jsSortLe_poly_asc, jsSortLe_poly_asc]
        exact le_total a.polyCount b.polyCount
      · rw [Bool.or_eq_true, jsSortLe_poly_desc, jsSortLe_poly_desc]
        exact le_total b.polyCount a.polyCount
    · intro a b ha hb
      simp only [sortKeyEqb, decide_eq_true_eq] at ha hb
      cases dir
      · rw [jsSortLe_poly_asc, ha, hb]
      · rw [jsSortLe_poly_desc, ha, hb]
  · intro hall c
    rw [List.all_eq_true] at hall
    rw [sortAssets, stableSort_eq_mergeSort, keyClass, keyClass]
    rw [mergeSort_congr l
      (fun a ha b hb => jsSortLe_date_eq dir a b (hall a ha) (hall b hb))]
    apply mergeSort_filter_stable
    · intro a b c' h1 h2
      cases dir <;>
        · simp only [dateKeyLe, decide_eq_true_eq] at h1 h2 ⊢
          omega
    · intro a b
      cases dir <;>
        · simp only [dateKeyLe, Bool.or_eq_true, decide_eq_true_eq]
          omega
    · intro a b ha hb
      simp only [sortKeyEqb, beq_iff_eq] at ha hb
      cases dir <;>
        · simp only [dateKeyLe, decide_eq_true_eq, ha, hb]
          exact le_refl _

/-- A minimal asset for sort probes, varying only id/name and timestamp. -/
def probeAsset (id createdAt : List Char) : Asset :=
  { id := id, name := id, polyCount := 1000, sizeMB := 25, tags := [],
    createdAt := createdAt, shape := "box".data, color := none, category := none,
    gltfUrl := none }

/-- Eight assets whose `createdAt` keys are the instants
7, 8, NaN, 5, 5, 9, 10, 11 (Jan 2025): the two `5`s are an equal-key
pair, `u`'s timestamp is unparsable. -/
def exList9 : List Asset :=
  [probeAsset "p7".data "2025-01-07T00:00:00Z".data,
   probeAsset "p8".data "2025-01-08T00:00:00Z".data,
   probeAsset "u".data "not-a-date".data,
   probeAsset "a5".data "2025-01-05T00:00:00Z".data,
   probeAsset "b5".data "2025-01-05T00:00:00Z".data,
   probeAsset "x9".data "2025-01-09T00:00:00Z".data,
   probeAsset "x10".data "2025-01-10T00:00:00Z".data,
   probeAsset "x11".data "2025-01-11T00:00:00Z".data]

/-- C9 counterexample: sorting `exList9` by `createdAt` ascending loses
the input order of the equal-key pair `a5`, `b5` — the unparsable
timestamp ties with everything and lets `b5` be merged ahead — so the
sort is not stable for every list, key and direction. -/
theorem spec_C9_counterexample : ¬ stableFor exList9 .createdAt .asc := by
  intro h
  exact absurd (h (probeAsset "a5".data "2025-01-05T00:00:00Z".data)) (by decide)

/-- C9 witness: the all-parsable hypothesis of `spec_C9_amended` holds at
the sample catalog, whose `createdAt` key classes are preserved. -/
theorem spec_C9_witness :
    INITIAL_ASSETS.all (fun a => (jsDateParse a.createdAt).isSome) = true
    ∧ keyClass .createdAt heroShield (sortAssets INITIAL_ASSETS .createdAt .asc)
        = keyClass .createdAt heroShield INITIAL_ASSETS :=
  ⟨by decide,
   (spec_C9_amended INITIAL_ASSETS .asc).2.2 (by decide) heroShield⟩

/-- Is the asset's timestamp unparsable (`Date.parse` yields `NaN`)? -/
def unparsableB (a : Asset) : Bool := (jsDateParse a.createdAt).isNone

/-- The claim's "unparsable timestamps sort last" shape: from the first
unparsable-timestamp asset on, only unparsable ones follow. -/
def unparsableLastB : List Asset → Bool
  | [] => true
  | a :: rest => (if unparsableB a then rest.all unparsableB else true) && unparsableLastB rest

/-- An unparsable-timestamp asset ahead of a parsable one. -/
def exList2 : List Asset :=
  [probeAsset "u".data "not-a-date".data,
   probeAsset "p".data "2025-01-05T00:00:00Z".data]

/-- C2 counterexample: sorting `exList2` by `createdAt` ascending leaves
the unparsable-timestamp asset in front of the parsable one — unparsable
timestamps are not placed after all parsable ones. -/
theorem spec_C2_counterexample :
    unparsableLastB (sortAssets exList2 .createdAt .asc) = false := by decide

/-- C2 amended: sorting by `createdAt` never throws and is deterministic —
it is a pure function whose output is a permutation of the input and whose
runs on equal inputs agree — and a pair with an unparsable timestamp on
either side gives a `NaN` comparator value that the sort treats as `+0`:
such assets tie with every element instead of being forced last. -/
theorem spec_C2_amended (l : List Asset) (dir : Dir) :
    List.Perm (sortAssets l .createdAt dir) l
    ∧ (∀ (l' : List Asset) (dir' : Dir), l = l' → dir = dir' →
        sortAssets l .createdAt dir = sortAssets l' .createdAt dir')
    ∧ (∀ a b : Asset, unparsableB a = true ∨ unparsableB b = true →
        sortCompareNum .createdAt dir a b = 0) := by
  refine ⟨?_, ?_, ?_⟩
  · rw [sortAssets, stableSort_eq_mergeSort]
    exact List.mergeSort_perm l _
  · intro l' dir' h1 h2
    rw [h1, h2]
  · intro a b hab
    rcases hab with h | h
    · have ha : jsDateParse a.createdAt = none := by
        simpa [unparsableB, Option.isNone_iff_eq_none] using h
      simp [sortCompareNum, sortCompare, ha]
    · have hb : jsDateParse b.createdAt = none := by
        simpa [unparsableB, Option.isNone_iff_eq_none] using h
      cases hpa : jsDateParse a.createdAt <;>
        simp [sortCompareNum, sortCompare, hpa, hb]

/-- C2 witness: the hypotheses of `spec_C2_amended` discharged at concrete
inputs — an unparsable probe ties with the Hero Shield sample asset, and
two identical sort runs agree. -/
theorem spec_C2_witness :
    unparsableB (probeAsset "u".data "not-a-date".data) = true
    ∧ sortCompareNum .createdAt .asc (probeAsset "u".data "not-a-date".data) heroShield = 0
    ∧ sortAssets exList2 .createdAt .asc = sortAssets exList2 .createdAt .asc :=
  ⟨by decide,
   (spec_C2_amended exList2 .asc).2.2 _ heroShield (Or.inl (by decide)),
   (spec_C2_amended exList2 .asc).2.1 exList2 .asc rfl rfl⟩

end AssetBrowser
